import Mathlib

/-!
Verification of the smart-home control agent.

The repository carries the controller code in two places: the file
src/code/smart_home.ino (a minimal relay controller), and a fuller listing in
the Code section of src/README.md (relay control by "ON"/"OFF" payloads, a
DHT temperature sensor, threshold automation at 16.0/24.0 and retained
telemetry). Both are embedded below: namespace `Ino` follows the .ino file,
namespace `Readme` follows the README listing. The economy-mode timer is
mentioned in the repository only as a comment ("simulated using timers"), so
it is modelled from the spec (see `evalAuto`).

Floating-point temperatures are embedded as `Option ℚ`: `none` stands for a
NaN sample (in C every ordered comparison against NaN is false, which the
embedding mirrors by the `none` branches), `some v` for a finite value. The
relay pin level is `Level` (`low`/`high`); the source drives the pin low for
logical On and high for logical Off (inverted polarity, per its comments).
-/

namespace SmartHome

/-- Physical level driven onto the relay pin by digitalWrite. -/
inductive Level where
  | low
  | high
deriving DecidableEq

/-- Logical actuator decision: the appliance is On or Off. -/
inductive ActState where
  | on
  | off
deriving DecidableEq

/-- Polarity used at every write site of the source: logical On is driven as
the LOW pin level, logical Off as HIGH (the relay board is active-low). -/
def levelOf : ActState → Level
  | ActState.on => Level.low
  | ActState.off => Level.high

namespace Ino

/-- Topic subscribed to in src/code/smart_home.ino (`reconnect`). -/
def controlTopic : String := "home/room1/light1"

/-- Embeds `callback` of src/code/smart_home.ino: it inspects only the first
payload byte; `'1'` drives the pin low (comment: ON), anything else drives it
high (comment: OFF). The previous relay level is ignored (both branches
write). An empty payload makes the C code read an out-of-range byte; it is
modelled as the non-`'1'` branch, and no claim depends on it. -/
def callback (payload : String) (_r : Level) : Level :=
  match payload.data with
  | [] => Level.high
  | c :: _ => if c = '1' then Level.low else Level.high

/-- Logical intent of `Ino.callback`, read off its comments: first byte `'1'`
means On, anything else Off. -/
def intent (payload : String) (_a : ActState) : ActState :=
  match payload.data with
  | [] => ActState.off
  | c :: _ => if c = '1' then ActState.on else ActState.off

/-- Steps of `setup` in src/code/smart_home.ino, in source order: the relay
pin is configured and driven high first, then Wi-Fi join, then broker server
configuration, then callback registration. -/
inductive SetupStep where
  | relayInit (l : Level)
  | wifiJoin
  | brokerConfig
  | callbackReg
  | sensorBegin
deriving DecidableEq

/-- Embeds `setup()` of src/code/smart_home.ino as its sequence of steps. -/
def setupSeq : List SetupStep :=
  [SetupStep.relayInit Level.high, SetupStep.wifiJoin,
   SetupStep.brokerConfig, SetupStep.callbackReg]

end Ino

namespace Readme

/-- Control topic of the README listing (`light_topic`). -/
def light_topic : String := "home/room1/light"

/-- Telemetry topic of the README listing (`temp_topic`). -/
def temp_topic : String := "home/room1/temperature"

/-- Embeds `callback` of the README listing: on the light topic, payload
exactly "ON" drives the pin low, exactly "OFF" drives it high, and any other
payload falls through leaving the relay unchanged; other topics are ignored. -/
def callback (topic msg : String) (relay : Level) : Level :=
  if topic = light_topic then
    if msg = "ON" then Level.low
    else if msg = "OFF" then Level.high
    else relay
  else relay

/-- Logical intent of `Readme.callback`: "ON" means On, "OFF" means Off, any
other payload or topic leaves the decision unchanged. -/
def intent (topic msg : String) (a : ActState) : ActState :=
  if topic = light_topic then
    if msg = "ON" then ActState.on
    else if msg = "OFF" then ActState.off
    else a
  else a

/-- Draining the inbound queue: `client.loop()` delivers each pending message
to the callback in arrival order. -/
def drain (msgs : List (String × String)) (relay : Level) : Level :=
  msgs.foldl (fun r m => callback m.1 m.2 r) relay

/-- Embeds the threshold automation of the README listing:
`if (temp <= 16.0) LOW; else if (temp >= 24.0) HIGH;`. A NaN sample (`none`)
fails both comparisons, leaving the relay unchanged. -/
def automation (temp : Option ℚ) (relay : Level) : Level :=
  match temp with
  | none => relay
  | some v => if v ≤ 16 then Level.low else if 24 ≤ v then Level.high else relay

/-- Logical intent of `Readme.automation`, per its comments: at or below the
low threshold the AC goes On, at or above the high threshold Off, otherwise
the previous decision stands. -/
def autoIntent (temp : Option ℚ) (a : ActState) : ActState :=
  match temp with
  | none => a
  | some v => if v ≤ 16 then ActState.on else if 24 ≤ v then ActState.off else a

/-- Embeds Arduino `String(float)`: decimal rendering with two fractional
digits, rounding to nearest. -/
def twoFrac (n : ℕ) : String :=
  (if n < 10 then "0" else "") ++ toString n

/-- Magnitude of a rational scaled by 100 and rounded to the nearest natural
(ties away from zero), computed on the numerator and denominator. -/
def scaled100 (q : ℚ) : ℕ :=
  (2 * (q.num.natAbs * 100) + q.den) / (2 * q.den)

/-- Decimal string for a temperature value, as `String(temp)` renders it:
the magnitude scaled by 100 and rounded to the nearest integer (half away
from zero, as dtostrf rounds), then printed as integer part, a dot, and two
fractional digits, with a leading minus sign for negative values. -/
def formatTemp (q : ℚ) : String :=
  (if q.num < 0 then "-" else "") ++
    toString (scaled100 q / 100) ++ "." ++ twoFrac (scaled100 q % 100)

/-- Embeds the telemetry step of the README listing: inside the
`!isnan(temp)` guard the value is published on the temperature topic with the
retained flag set; a NaN sample publishes nothing. -/
def telemetry (temp : Option ℚ) : List (String × String × Bool) :=
  match temp with
  | none => []
  | some v => [(temp_topic, formatTemp v, true)]

end Readme

/-- Connectivity stages implicit in the source: before Wi-Fi join (`offline`),
Wi-Fi joined but no broker session (`joined`), broker session open (`ready`). -/
inductive ConnState where
  | offline
  | joined
  | ready
deriving DecidableEq

/-- Outcomes of the external connectivity calls: a Wi-Fi join attempt
succeeds or fails, a broker `connect` attempt succeeds or fails, and a lost
broker session is observed as a broker failure. -/
inductive ConnEvent where
  | joinOk
  | joinFail
  | brokerOk
  | brokerFail
deriving DecidableEq

/-- Embeds the connectivity control flow of src/code/smart_home.ino:
`setup_wifi` retries the join until it succeeds; `reconnect` retries
`client.connect` until it succeeds and re-issues `client.subscribe` on every
successful connect; `loop` re-enters `reconnect` when the session is found
closed. The second component is the list of subscriptions issued by the step. -/
def connStep : ConnState → ConnEvent → ConnState × List String
  | ConnState.offline, ConnEvent.joinOk => (ConnState.joined, [])
  | ConnState.offline, _ => (ConnState.offline, [])
  | ConnState.joined, ConnEvent.brokerOk => (ConnState.ready, [Ino.controlTopic])
  | ConnState.joined, _ => (ConnState.joined, [])
  | ConnState.ready, ConnEvent.brokerFail => (ConnState.joined, [])
  | ConnState.ready, _ => (ConnState.ready, [])

/-- Runs the connectivity machine over a sequence of event outcomes. -/
def connRun : ConnState → List ConnEvent → ConnState
  | s, [] => s
  | s, e :: rest => connRun (connStep s e).1 rest

/-- Phases of one `loop()` iteration of the README listing, in the order the
source executes them. -/
inductive Phase where
  | connectivity
  | drainMsgs
  | sample
  | telemetryPub
  | automationEval
deriving DecidableEq

namespace Readme

/-- State carried across loop iterations: broker connectivity and the relay
pin level. -/
structure LoopState where
  conn : ConnState
  relay : Level
deriving DecidableEq

/-- Result of one loop iteration: the new state, the messages published this
iteration (topic, payload, retained flag), and the trace of phases run. -/
structure TickOut where
  state : LoopState
  pubs : List (String × String × Bool)
  trace : List Phase
deriving DecidableEq

/-- Embeds one iteration of `loop()` of the README listing, in source order:
the connectivity check (`reconnect` blocks until the session is open, so the
iteration proceeds with connectivity ready), `client.loop()` draining the
inbound messages through the callback, the DHT sample, the telemetry publish
inside the `!isnan` guard, and finally the threshold automation. `msgs` are
the messages the broker delivers this iteration, `temp` the sample. -/
def tick (msgs : List (String × String)) (temp : Option ℚ) (s : LoopState) : TickOut :=
  let relay1 := drain msgs s.relay
  let pubs := telemetry temp
  let relay2 := automation temp relay1
  { state := { conn := ConnState.ready, relay := relay2 }
    pubs := pubs
    trace := [Phase.connectivity, Phase.drainMsgs, Phase.sample] ++
      (match temp with | none => [] | some _ => [Phase.telemetryPub]) ++
      [Phase.automationEval] }

/-- Embeds `setup()` of the README listing as its sequence of steps: relay
pin driven high first, then Wi-Fi join, broker configuration, callback
registration and sensor start. -/
def setupSeq : List Ino.SetupStep :=
  [Ino.SetupStep.relayInit Level.high, Ino.SetupStep.wifiJoin,
   Ino.SetupStep.brokerConfig, Ino.SetupStep.callbackReg,
   Ino.SetupStep.sensorBegin]

end Readme

/-- Band position of the automation state machine of spec §4.3. -/
inductive BandState where
  | below
  | inBand
  | above
deriving DecidableEq

/-- Economy-timer sub-state of spec §4.3. `armed t0` records the monotonic
instant the countdown started; `fired t0` records that the one-shot economy
action has been applied for this Above episode. -/
inductive TimerState where
  | inactive
  | armed (t0 : ℕ)
  | fired (t0 : ℕ)
deriving DecidableEq

/-- Full automation-engine state of spec §4.3. -/
structure AutoState where
  band : BandState
  timer : TimerState
  act : ActState
deriving DecidableEq

/-- Modelled from the spec: the source mentions the economy-mode fallback
only in a comment ("After 30 minutes, it can switch to Economy mode by
default (simulated using timers)") with no timer code present, and spec §4.3
defines the intended semantics. On a valid reading: value at or below the low
threshold goes Below and drives On; value at or above the high threshold goes
Above, drives Off and arms the timer if not armed, firing the one-shot
economy action (second component `true`) once the armed delay has elapsed;
an in-band value keeps the previous decision and disarms the timer. A NaN
reading (`none`) changes nothing. Times are monotonic instants in
milliseconds. -/
def evalAuto (low high : ℚ) (delay now : ℕ) (temp : Option ℚ) (s : AutoState) :
    AutoState × Bool :=
  match temp with
  | none => (s, false)
  | some v =>
    if v ≤ low then (⟨BandState.below, TimerState.inactive, ActState.on⟩, false)
    else if high ≤ v then
      match s.timer with
      | TimerState.inactive => (⟨BandState.above, TimerState.armed now, ActState.off⟩, false)
      | TimerState.armed t0 =>
        if delay ≤ now - t0 then (⟨BandState.above, TimerState.fired t0, ActState.off⟩, true)
        else (⟨BandState.above, TimerState.armed t0, ActState.off⟩, false)
      | TimerState.fired t0 => (⟨BandState.above, TimerState.fired t0, ActState.off⟩, false)
    else (⟨BandState.inBand, TimerState.inactive, s.act⟩, false)

/-- Runs the automation engine over a list of (instant, reading) ticks,
returning the final state and how many times the economy action fired. -/
def runAuto (low high : ℚ) (delay : ℕ) : AutoState → List (ℕ × Option ℚ) → AutoState × ℕ
  | s, [] => (s, 0)
  | s, (t, temp) :: rest =>
    let p := evalAuto low high delay t temp s
    let q := runAuto low high delay p.1 rest
    (q.1, (if p.2 then 1 else 0) + q.2)

/-! Theorems settling the claims. -/

/-- Claim C1: for every valid (non-NaN) reading, the automation drives the
relay to the On level when the value is at most the low threshold 16.0, to
the Off level when the value is at least the high threshold 24.0, and leaves
the relay unchanged strictly between the thresholds. -/
theorem C1_threshold_automation (v : ℚ) (r : Level) :
    (v ≤ 16 → Readme.automation (some v) r = levelOf ActState.on) ∧
    (24 ≤ v → Readme.automation (some v) r = levelOf ActState.off) ∧
    (16 < v → v < 24 → Readme.automation (some v) r = r) := by
  refine ⟨fun h => ?_, fun h => ?_, fun h1 h2 => ?_⟩ <;>
    simp only [Readme.automation, levelOf]
  · rw [if_pos h]
  · rw [if_neg (by linarith), if_pos h]
  · rw [if_neg (by linarith), if_neg (by linarith)]

/-- Claim C1 witness: the three threshold cases at readings 15, 25 and 20. -/
theorem C1_threshold_automation_witness :
    Readme.automation (some 15) Level.high = levelOf ActState.on ∧
    Readme.automation (some 25) Level.low = levelOf ActState.off ∧
    Readme.automation (some 20) Level.low = Level.low :=
  ⟨(C1_threshold_automation 15 Level.high).1 (by norm_num),
   (C1_threshold_automation 25 Level.low).2.1 (by norm_num),
   (C1_threshold_automation 20 Level.low).2.2 (by norm_num) (by norm_num)⟩

/-- Claim C2 (code bug): `callback` in src/code/smart_home.ino tests only
whether the first payload byte is the character 1, so the documented payload
"ON" drives the relay high (Off), and an unrecognized payload such as
"banana" also drives it high instead of being a no-op — contradicting the
repository README, whose own code listing (`Readme.callback`) implements the
documented grammar exactly. -/
theorem C2_payload_grammar_code_bug :
    Ino.callback "ON" Level.low = Level.high ∧
    Ino.callback "ON" Level.high = Level.high ∧
    Ino.callback "banana" Level.low = Level.high ∧
    Readme.callback Readme.light_topic "ON" Level.high = Level.low ∧
    Readme.callback Readme.light_topic "OFF" Level.low = Level.high ∧
    Readme.callback Readme.light_topic "banana" Level.low = Level.low := by
  refine ⟨rfl, rfl, rfl, ?_, ?_, ?_⟩ <;> decide

/-- Claim C8: dispatching the same command payload twice in succession yields
the same relay level as dispatching it once, for both the .ino callback and
the README-listing callback. -/
theorem C8_command_idempotent (topic payload : String) (r : Level) :
    Ino.callback payload (Ino.callback payload r) = Ino.callback payload r ∧
    Readme.callback topic payload (Readme.callback topic payload r) =
      Readme.callback topic payload r := by
  constructor
  · rfl
  · simp only [Readme.callback]
    split_ifs <;> rfl

/-- Claim C9: every actuator write site preserves the inverted polarity
mapping — logical On is driven as the low pin level and logical Off as high,
and each write (either callback, and the threshold automation) emits exactly
the level of its logical decision. -/
theorem C9_polarity_invariant (topic payload : String) (a : ActState) (temp : Option ℚ) :
    levelOf ActState.on = Level.low ∧
    levelOf ActState.off = Level.high ∧
    Level.low ≠ Level.high ∧
    Ino.callback payload (levelOf a) = levelOf (Ino.intent payload a) ∧
    Readme.callback topic payload (levelOf a) = levelOf (Readme.intent topic payload a) ∧
    Readme.automation temp (levelOf a) = levelOf (Readme.autoIntent temp a) := by
  refine ⟨rfl, rfl, by decide, ?_, ?_, ?_⟩
  · simp only [Ino.callback, Ino.intent]
    cases payload.data with
    | nil => rfl
    | cons c cs => by_cases h : c = '1' <;> simp [h, levelOf]
  · simp only [Readme.callback, Readme.intent]
    split_ifs <;> rfl
  · cases temp with
    | none => rfl
    | some v =>
      simp only [Readme.automation, Readme.autoIntent]
      split_ifs <;> rfl

/-- Claim C9 witness: the polarity mapping at concrete write sites — the
.ino callback on payload "1" and the automation at reading 25. -/
theorem C9_polarity_invariant_witness :
    Ino.callback "1" (levelOf ActState.off) =
      levelOf (Ino.intent "1" ActState.off) ∧
    Readme.automation (some 25) (levelOf ActState.on) =
      levelOf (Readme.autoIntent (some 25) ActState.on) :=
  ⟨(C9_polarity_invariant "t" "1" ActState.off (some 25)).2.2.2.1,
   (C9_polarity_invariant "t" "1" ActState.on (some 25)).2.2.2.2.2⟩

/-- Claim C10: in both setup sequences the very first step drives the relay
to the level of logical Off, and the network join, broker configuration and
callback registration all come strictly later. -/
theorem C10_startup_relay_off :
    Ino.setupSeq.head? = some (Ino.SetupStep.relayInit (levelOf ActState.off)) ∧
    Ino.SetupStep.wifiJoin ∈ Ino.setupSeq.drop 1 ∧
    Ino.SetupStep.brokerConfig ∈ Ino.setupSeq.drop 1 ∧
    Ino.SetupStep.callbackReg ∈ Ino.setupSeq.drop 1 ∧
    Readme.setupSeq.head? = some (Ino.SetupStep.relayInit (levelOf ActState.off)) ∧
    Ino.SetupStep.wifiJoin ∈ Readme.setupSeq.drop 1 ∧
    Ino.SetupStep.sensorBegin ∈ Readme.setupSeq.drop 1 := by
  decide

/-- Claim C3 counterexample: on a tick with a valid reading the source runs
the telemetry publish before the threshold automation, so the claimed phase
order (automation before telemetry) does not hold. -/
theorem C3_phase_order_counterexample :
    (Readme.tick [] (some 25) ⟨ConnState.ready, Level.low⟩).trace =
      [Phase.connectivity, Phase.drainMsgs, Phase.sample,
       Phase.telemetryPub, Phase.automationEval] ∧
    (Readme.tick [] (some 25) ⟨ConnState.ready, Level.low⟩).trace ≠
      [Phase.connectivity, Phase.drainMsgs, Phase.sample,
       Phase.automationEval, Phase.telemetryPub] := by
  constructor
  · rfl
  · decide

/-- Claim C3 amended: the phases of a tick run in the fixed source order
connectivity, message draining, sampling, telemetry publish (present exactly
when the sample is valid), automation evaluation; every command drained this
tick is applied to the relay before the automation evaluates, the automation
output is the tick's final relay value, and whenever the automation writes
(valid reading at or beyond either threshold) the tick's final relay value is
independent of the commands drained. -/
theorem C3_tick_order_amended (msgs msgs2 : List (String × String))
    (temp : Option ℚ) (s : Readme.LoopState) :
    ((Readme.tick msgs temp s).trace =
      [Phase.connectivity, Phase.drainMsgs, Phase.sample] ++
        (match temp with | none => [] | some _ => [Phase.telemetryPub]) ++
        [Phase.automationEval]) ∧
    ((Readme.tick msgs temp s).state.relay =
      Readme.automation temp (Readme.drain msgs s.relay)) ∧
    (∀ v, temp = some v → v ≤ 16 ∨ 24 ≤ v →
      (Readme.tick msgs temp s).state.relay =
        (Readme.tick msgs2 temp s).state.relay) := by
  refine ⟨rfl, rfl, fun v hv hcase => ?_⟩
  subst hv
  show Readme.automation (some v) (Readme.drain msgs s.relay) =
    Readme.automation (some v) (Readme.drain msgs2 s.relay)
  rcases hcase with h | h
  · simp only [Readme.automation, if_pos h]
  · simp only [Readme.automation, if_neg (show ¬ v ≤ 16 by linarith), if_pos h]

/-- Claim C3 witness: a same-tick "ON" command followed by an Above
evaluation at reading 25 ends the tick at the Off level, identical to the
tick with no command at all. -/
theorem C3_tick_order_amended_witness :
    (Readme.tick [(Readme.light_topic, "ON")] (some 25)
        ⟨ConnState.ready, Level.high⟩).state.relay =
      (Readme.tick [] (some 25) ⟨ConnState.ready, Level.high⟩).state.relay ∧
    (Readme.tick [(Readme.light_topic, "ON")] (some 25)
        ⟨ConnState.ready, Level.high⟩).state.relay = Level.high :=
  ⟨(C3_tick_order_amended [(Readme.light_topic, "ON")] [] (some 25)
      ⟨ConnState.ready, Level.high⟩).2.2 25 rfl (Or.inr (by norm_num)),
   by decide⟩

/-- Claim C5: on a cycle whose sample is NaN, the automation leaves the relay
unchanged, a tick with no inbound commands leaves the whole relay state
unchanged, nothing is published on the telemetry topic, and the modelled
automation engine leaves its state (band, timer, actuator) unchanged without
firing. -/
theorem C5_invalid_reading_skips (r : Level) (s : Readme.LoopState)
    (low high : ℚ) (delay now : ℕ) (st : AutoState) :
    Readme.automation none r = r ∧
    (Readme.tick [] none s).state.relay = s.relay ∧
    (Readme.tick [] none s).pubs = [] ∧
    evalAuto low high delay now none st = (st, false) :=
  ⟨rfl, rfl, rfl, rfl⟩

/-- Claim C7: the messages published by a tick are exactly one retained
message on the telemetry topic carrying the decimally formatted reading when
the sample is valid, and none when it is NaN; a publish happens exactly when
the sample is valid and the tick's connectivity is ready (the blocking
reconnect guarantees readiness at the publish point). -/
theorem C7_telemetry_publish (msgs : List (String × String)) (temp : Option ℚ)
    (s : Readme.LoopState) :
    ((Readme.tick msgs temp s).pubs =
      match temp with
      | none => []
      | some v => [(Readme.temp_topic, Readme.formatTemp v, true)]) ∧
    ((Readme.tick msgs temp s).pubs ≠ [] ↔
      temp.isSome = true ∧ (Readme.tick msgs temp s).state.conn = ConnState.ready) := by
  refine ⟨rfl, ?_⟩
  cases temp <;> simp [Readme.tick, Readme.telemetry]

/-- Claim C7 witness: at reading 25 the tick publishes exactly the retained
telemetry message "25.00". -/
theorem C7_telemetry_publish_witness :
    (Readme.tick [] (some 25) ⟨ConnState.ready, Level.low⟩).pubs =
      [(Readme.temp_topic, Readme.formatTemp 25, true)] ∧
    Readme.formatTemp 25 = "25.00" :=
  ⟨(C7_telemetry_publish [] (some 25) ⟨ConnState.ready, Level.low⟩).1,
   by decide⟩

/-- Helper: reaching ready from the joined stage requires a successful broker
session open among the events. -/
theorem connRun_joined_ready_broker (evs : List ConnEvent) :
    connRun ConnState.joined evs = ConnState.ready → ConnEvent.brokerOk ∈ evs := by
  induction evs with
  | nil => intro h; exact absurd h (by decide)
  | cons e rest ih =>
    intro h
    cases e with
    | joinOk => exact List.mem_cons_of_mem _ (ih (by simpa [connRun, connStep] using h))
    | joinFail => exact List.mem_cons_of_mem _ (ih (by simpa [connRun, connStep] using h))
    | brokerOk => exact List.mem_cons_self _ _
    | brokerFail => exact List.mem_cons_of_mem _ (ih (by simpa [connRun, connStep] using h))

/-- Helper: reaching ready from offline requires a successful network join,
with a successful broker session open somewhere after it. -/
theorem connRun_offline_ready_split (evs : List ConnEvent) :
    connRun ConnState.offline evs = ConnState.ready →
    ∃ pre suf, evs = pre ++ ConnEvent.joinOk :: suf ∧ ConnEvent.brokerOk ∈ suf := by
  induction evs with
  | nil => intro h; exact absurd h (by decide)
  | cons e rest ih =>
    intro h
    cases e with
    | joinOk =>
      exact ⟨[], rest, rfl,
        connRun_joined_ready_broker rest (by simpa [connRun, connStep] using h)⟩
    | joinFail =>
      obtain ⟨pre, suf, heq, hmem⟩ := ih (by simpa [connRun, connStep] using h)
      exact ⟨ConnEvent.joinFail :: pre, suf, by rw [heq]; rfl, hmem⟩
    | brokerOk =>
      obtain ⟨pre, suf, heq, hmem⟩ := ih (by simpa [connRun, connStep] using h)
      exact ⟨ConnEvent.brokerOk :: pre, suf, by rw [heq]; rfl, hmem⟩
    | brokerFail =>
      obtain ⟨pre, suf, heq, hmem⟩ := ih (by simpa [connRun, connStep] using h)
      exact ⟨ConnEvent.brokerFail :: pre, suf, by rw [heq]; rfl, hmem⟩

/-- Claim C4: from offline, the connectivity machine reaches ready only on a
run containing a successful network join followed later by a successful
broker session open; a failure outcome never produces ready from a non-ready
state; a lost broker session drops ready back to the joined stage; and every
transition into ready issues the topic subscription afresh. -/
theorem C4_connectivity_ready (evs : List ConnEvent) (s : ConnState) (e : ConnEvent) :
    (connRun ConnState.offline evs = ConnState.ready →
      ∃ pre suf, evs = pre ++ ConnEvent.joinOk :: suf ∧ ConnEvent.brokerOk ∈ suf) ∧
    (s ≠ ConnState.ready →
      (connStep s ConnEvent.joinFail).1 ≠ ConnState.ready ∧
      (connStep s ConnEvent.brokerFail).1 ≠ ConnState.ready) ∧
    (connStep ConnState.ready ConnEvent.brokerFail).1 = ConnState.joined ∧
    ((connStep s e).1 = ConnState.ready → s ≠ ConnState.ready →
      (connStep s e).2 = [Ino.controlTopic]) := by
  refine ⟨connRun_offline_ready_split evs, fun hs => ?_, rfl, fun h1 h2 => ?_⟩
  · cases s <;> first | exact absurd rfl hs | exact ⟨by decide, by decide⟩
  · cases s <;> cases e <;> first | rfl | exact absurd h1 (by decide) | exact absurd rfl h2

/-- Claim C4 witness: the run joinFail, joinOk, brokerFail, brokerOk reaches
ready, splits around its join success with the broker success after it, the
broker failure at the joined stage did not yield ready, and the final broker
success issued the subscription. -/
theorem C4_connectivity_ready_witness :
    (∃ pre suf,
      [ConnEvent.joinFail, ConnEvent.joinOk, ConnEvent.brokerFail, ConnEvent.brokerOk] =
        pre ++ ConnEvent.joinOk :: suf ∧ ConnEvent.brokerOk ∈ suf) ∧
    (connStep ConnState.joined ConnEvent.brokerFail).1 ≠ ConnState.ready ∧
    (connStep ConnState.joined ConnEvent.brokerOk).2 = [Ino.controlTopic] :=
  ⟨(C4_connectivity_ready
      [ConnEvent.joinFail, ConnEvent.joinOk, ConnEvent.brokerFail, ConnEvent.brokerOk]
      ConnState.joined ConnEvent.brokerOk).1 (by decide),
   ((C4_connectivity_ready [] ConnState.joined ConnEvent.brokerOk).2.1 (by decide)).2,
   (C4_connectivity_ready [] ConnState.joined ConnEvent.brokerOk).2.2.2 (by decide)
     (by decide)⟩

/-- Helper: once the economy action has fired for an Above episode, further
Above evaluations never fire it again. -/
theorem runAuto_fired_count (low high : ℚ) (delay t0 : ℕ) (v : ℚ)
    (hlh : low < high) (hv : high ≤ v) (ts : List ℕ) :
    (runAuto low high delay ⟨BandState.above, TimerState.fired t0, ActState.off⟩
      (ts.map fun t => (t, some v))).2 = 0 := by
  induction ts with
  | nil => rfl
  | cons t rest ih =>
    have hnle : ¬ v ≤ low := not_le.mpr (lt_of_lt_of_le hlh hv)
    simp only [List.map_cons, runAuto, evalAuto, if_neg hnle, if_pos hv]
    simpa using ih

/-- Helper: from an armed timer, a run of Above evaluations fires the economy
action exactly once when some instant has reached the delay, and zero times
otherwise. -/
theorem runAuto_armed_count (low high : ℚ) (delay t0 : ℕ) (v : ℚ)
    (hlh : low < high) (hv : high ≤ v) (ts : List ℕ) :
    (runAuto low high delay ⟨BandState.above, TimerState.armed t0, ActState.off⟩
      (ts.map fun t => (t, some v))).2 =
      if ts.any (fun t => decide (delay ≤ t - t0)) then 1 else 0 := by
  induction ts with
  | nil => rfl
  | cons t rest ih =>
    have hnle : ¬ v ≤ low := not_le.mpr (lt_of_lt_of_le hlh hv)
    by_cases hd : delay ≤ t - t0
    · simp only [List.map_cons, runAuto, evalAuto, if_neg hnle, if_pos hv, if_pos hd,
        List.any_cons, hd, decide_True, Bool.true_or, if_true]
      rw [runAuto_fired_count low high delay t0 v hlh hv rest]
    · simp only [List.map_cons, runAuto, evalAuto, if_neg hnle, if_pos hv, if_neg hd,
        List.any_cons, hd, decide_False, Bool.false_or]
      simpa using ih

/-- Claim C6: with the band held continuously Above from an armed timer, the
economy action fires exactly once over the run exactly when some evaluation
instant has reached the armed delay, fires zero times while every instant is
still short of the delay, and any evaluation whose reading has left Above
(value below the high threshold) disarms the timer without firing. -/
theorem C6_economy_timer (low high v : ℚ) (delay t0 : ℕ) (ts : List ℕ)
    (hlh : low < high) (hv : high ≤ v) :
    ((runAuto low high delay ⟨BandState.above, TimerState.armed t0, ActState.off⟩
        (ts.map fun t => (t, some v))).2 =
      if ts.any (fun t => decide (delay ≤ t - t0)) then 1 else 0) ∧
    ((∀ t ∈ ts, t - t0 < delay) →
      (runAuto low high delay ⟨BandState.above, TimerState.armed t0, ActState.off⟩
        (ts.map fun t => (t, some v))).2 = 0) ∧
    (∀ (now : ℕ) (w : ℚ) (st : AutoState), w < high →
      (evalAuto low high delay now (some w) st).1.timer = TimerState.inactive ∧
      (evalAuto low high delay now (some w) st).2 = false) := by
  refine ⟨runAuto_armed_count low high delay t0 v hlh hv ts, fun hall => ?_,
    fun now w st hw => ?_⟩
  · rw [runAuto_armed_count low high delay t0 v hlh hv ts, if_neg]
    simp only [List.any_eq_true, not_exists, not_and]
    intro t ht
    simp only [decide_eq_true_eq]
    exact fun hc => absurd (hall t ht) (not_lt.mpr hc)
  · simp only [evalAuto]
    split_ifs with h1 h2
    · exact ⟨rfl, rfl⟩
    · exact absurd hw (not_lt.mpr h2)
    · exact ⟨rfl, rfl⟩

/-- Claim C6 witness: thresholds 16 and 24, reading 25, delay 10 armed at 0,
evaluations at instants 3, 7, 12, 20: the economy action fires exactly once;
and an in-band reading 20 while armed disarms without firing. -/
theorem C6_economy_timer_witness :
    (runAuto 16 24 10 ⟨BandState.above, TimerState.armed 0, ActState.off⟩
      ([3, 7, 12, 20].map fun t => (t, some 25))).2 = 1 ∧
    (evalAuto 16 24 10 7 (some 20)
      ⟨BandState.above, TimerState.armed 0, ActState.off⟩).1.timer =
        TimerState.inactive :=
  ⟨((C6_economy_timer 16 24 25 10 0 [3, 7, 12, 20] (by norm_num) (by norm_num)).1).trans
      (by decide),
   ((C6_economy_timer 16 24 25 10 0 [3, 7, 12, 20] (by norm_num) (by norm_num)).2.2
      7 20 ⟨BandState.above, TimerState.armed 0, ActState.off⟩ (by norm_num)).1⟩

end SmartHome
